import Mathlib

/-!
Shallow embedding of the NiceMPI header-only C++ wrapper library.

The native MPI library is modelled abstractly: an `MPIState` records which
native communicators are allocated, a congruence class (`Group`) for each
communicator, and this process's rank/size per congruence class.  Native
calls whose outcome depends on the outside world (`MPI_Init`, `MPI_Test`,
`MPI_Wait`) take the native status code as an explicit parameter.  The
wrapper code itself (`handleError`, `MPIcommunicatorHandle`, `Communicator`,
`SendRequest`, `ReceiveRequest`, `MPI_RAII`, `Initializer`) is translated
directly from the source headers, statement by statement, as state-passing
functions; `std::unique_ptr` becomes `Option` (with `none` modelling the
null pointer), and a C++ function that may throw returns `Except`.
-/

namespace NiceMPI

/-- MPICH's successful status code. -/
def MPI_SUCCESS : Int := 0

/-- From `NiceMPIexception.h`: the exception type.  The C++ class stores the
`error` code and builds the `std::runtime_error` message
`"Error code " + std::to_string(error) + " in MPI."` in its constructor. -/
structure NiceMPIexception where
  error : Int
  message : String
deriving DecidableEq, Repr

/-- The `NiceMPIexception(int error)` constructor from `NiceMPIexception.h`
lines 33-41: stores the code and formats the message. -/
def mkNiceMPIexception (error : Int) : NiceMPIexception :=
  { error := error, message := "Error code " ++ toString error ++ " in MPI." }

/-- `handleError` from `NiceMPIexception.h` lines 44-46:
`if(error != MPI_SUCCESS) throw NiceMPIexception{error};`. -/
def handleError (error : Int) : Except NiceMPIexception Unit :=
  if error ≠ MPI_SUCCESS then Except.error (mkNiceMPIexception error) else Except.ok ()

/-! ## Abstract model of the native communicator layer -/

/-- Congruence class of a native communicator.  `MPI_Comm_dup` produces a
communicator in the same class; `MPI_Comm_split` produces one in a class
determined by the parent's class and the caller's color. -/
inductive Group where
  | base (n : Nat)
  | splitOf (parent : Group) (color : Int)
deriving DecidableEq, Repr

/-- State of the native MPI library as seen from one process: allocated
communicator identifiers, their congruence classes, and this process's
rank and the communicator size for each congruence class (congruent
communicators share rank and size). -/
structure MPIState where
  nextId : Nat
  alive : List Nat
  groupOf : Nat → Group
  rankOf : Group → Int
  sizeOf : Group → Nat

/-- Native `MPI_Comm_dup`: allocates a fresh communicator congruent to the
argument. -/
def MPI_Comm_dup (s : MPIState) (c : Nat) : MPIState × Nat :=
  let fresh := s.nextId
  ({ s with
      nextId := fresh + 1
      alive := fresh :: s.alive
      groupOf := fun d => if d = fresh then s.groupOf c else s.groupOf d },
   fresh)

/-- Native `MPI_Comm_free`: releases the communicator. -/
def MPI_Comm_free (s : MPIState) (c : Nat) : MPIState :=
  { s with alive := s.alive.erase c }

/-- Native `MPI_Comm_split`: allocates a fresh communicator whose congruence
class is determined by the parent's class and the caller's color; the key
only orders ranks inside the new communicator. -/
def MPI_Comm_split (s : MPIState) (c : Nat) (color : Int) (key : Int) : MPIState × Nat :=
  let fresh := s.nextId
  let _ := key
  ({ s with
      nextId := fresh + 1
      alive := fresh :: s.alive
      groupOf := fun d => if d = fresh then Group.splitOf (s.groupOf c) color else s.groupOf d },
   fresh)

/-- `MPI_Comm_compare` returns `MPI_IDENT` exactly on equal handles. -/
def identicalComm (a b : Nat) : Prop := a = b

/-- `MPI_Comm_compare` returns `MPI_CONGRUENT` on distinct handles of the
same congruence class. -/
def congruentComm (s : MPIState) (a b : Nat) : Prop :=
  a ≠ b ∧ s.groupOf a = s.groupOf b

/-! ## `MPIcommunicatorHandle` (private/MPIcommunicatorHandle.hpp) -/

/-- The two implementations of `MPIcommunicatorHandleImpl`:
`OwnedCommunicator` and `ProxyCommunicator`, each storing one
`MPI_Comm mpiCommunicator`. -/
inductive MPIcommunicatorHandleImpl where
  | ownedCommunicator (mpiCommunicator : Nat)
  | proxyCommunicator (mpiCommunicator : Nat)
deriving DecidableEq, Repr

/-- `get()` of either implementation returns the stored `MPI_Comm`. -/
def MPIcommunicatorHandleImpl.get : MPIcommunicatorHandleImpl → Nat
  | .ownedCommunicator c => c
  | .proxyCommunicator c => c

/-- `deepCopy()` of either implementation constructs a new
`OwnedCommunicator(mpiCommunicator)`, whose constructor runs
`MPI_Comm_dup` (a proxy cannot be copied, so its copy is owned too). -/
def MPIcommunicatorHandleImpl.deepCopy (i : MPIcommunicatorHandleImpl) (s : MPIState) :
    MPIState × MPIcommunicatorHandleImpl :=
  match i with
  | .ownedCommunicator c =>
      let p := MPI_Comm_dup s c
      (p.1, .ownedCommunicator p.2)
  | .proxyCommunicator c =>
      let p := MPI_Comm_dup s c
      (p.1, .ownedCommunicator p.2)

/-- `~OwnedCommunicator` frees the owned communicator; `ProxyCommunicator`
has the trivial destructor. -/
def MPIcommunicatorHandleImpl.destruct (i : MPIcommunicatorHandleImpl) (s : MPIState) : MPIState :=
  match i with
  | .ownedCommunicator c => MPI_Comm_free s c
  | .proxyCommunicator _ => s

/-- `MPIcommunicatorHandle` holds `std::unique_ptr<MPIcommunicatorHandleImpl> impl`;
`none` models the null pointer (the state of a moved-from handle). -/
structure MPIcommunicatorHandle where
  impl : Option MPIcommunicatorHandleImpl
deriving DecidableEq, Repr

/-- Destroying the `unique_ptr` destroys the pointed-to implementation when
it is non-null. -/
def destructImplPtr (s : MPIState) : Option MPIcommunicatorHandleImpl → MPIState
  | some i => i.destruct s
  | none => s

/-- `MPIcommunicatorHandle(MPI_Comm)`: `impl = new OwnedCommunicator(mpiCommunicator)`. -/
def MPIcommunicatorHandle.fromComm (s : MPIState) (mpiCommunicator : Nat) :
    MPIState × MPIcommunicatorHandle :=
  let p := MPI_Comm_dup s mpiCommunicator
  (p.1, ⟨some (.ownedCommunicator p.2)⟩)

/-- `MPIcommunicatorHandle(MPI_Comm*)`: `impl = new ProxyCommunicator(*mpiCommunicator)`. -/
def MPIcommunicatorHandle.fromCommPtr (mpiCommunicator : Nat) : MPIcommunicatorHandle :=
  ⟨some (.proxyCommunicator mpiCommunicator)⟩

/-- Copy constructor: `impl = rhs.impl->deepCopy();`.  Returns `none` when
`rhs.impl` is null (the C++ code would dereference a null pointer). -/
def MPIcommunicatorHandle.copyConstruct (s : MPIState) (rhs : MPIcommunicatorHandle) :
    Option (MPIState × MPIcommunicatorHandle) :=
  rhs.impl.map fun i =>
    let p := i.deepCopy s
    (p.1, ⟨some p.2⟩)

/-- Move constructor: `impl = std::move(rhs.impl);`.  Returns the state, the
constructed handle, and `rhs` as the move leaves it (null `impl`). -/
def MPIcommunicatorHandle.moveConstruct (s : MPIState) (rhs : MPIcommunicatorHandle) :
    MPIState × MPIcommunicatorHandle × MPIcommunicatorHandle :=
  (s, ⟨rhs.impl⟩, ⟨none⟩)

/-- `~MPIcommunicatorHandle() = default`: destroys `impl`. -/
def MPIcommunicatorHandle.destruct (s : MPIState) (h : MPIcommunicatorHandle) : MPIState :=
  destructImplPtr s h.impl

/-- Copy assignment: `impl = rhs.impl->deepCopy();`.  The right-hand side is
evaluated first; storing it into the `unique_ptr` then destroys the
implementation `this` held before.  Returns `none` when `rhs.impl` is null. -/
def MPIcommunicatorHandle.copyAssign (s : MPIState)
    (this rhs : MPIcommunicatorHandle) : Option (MPIState × MPIcommunicatorHandle) :=
  rhs.impl.map fun i =>
    let p := i.deepCopy s
    (destructImplPtr p.1 this.impl, ⟨some p.2⟩)

/-- Move assignment: `impl = std::move(rhs.impl);`.  The `unique_ptr`
assignment destroys the implementation `this` held before and leaves
`rhs.impl` null.  Returns the state, the assigned-to handle, and `rhs`
after the move. -/
def MPIcommunicatorHandle.moveAssign (s : MPIState)
    (this rhs : MPIcommunicatorHandle) :
    MPIState × MPIcommunicatorHandle × MPIcommunicatorHandle :=
  (destructImplPtr s this.impl, ⟨rhs.impl⟩, ⟨none⟩)

/-- `get()`: `return impl->get();`.  `none` models the null-pointer
dereference on a moved-from handle. -/
def MPIcommunicatorHandle.get (h : MPIcommunicatorHandle) : Option Nat :=
  h.impl.map MPIcommunicatorHandleImpl.get

/-! ## `Communicator` (NiceMPI/NiceMPI.h, NiceMPI/private/NiceMPI.hpp) -/

/-- `Communicator` is a value type composed of one `MPIcommunicatorHandle`. -/
structure Communicator where
  handle : MPIcommunicatorHandle
deriving DecidableEq, Repr

/-- `Communicator(MPI_Comm)`: `handle(mpiCommunicator)` — the owning handle
constructor, which duplicates. -/
def Communicator.fromComm (s : MPIState) (mpiCommunicator : Nat) : MPIState × Communicator :=
  let p := MPIcommunicatorHandle.fromComm s mpiCommunicator
  (p.1, ⟨p.2⟩)

/-- `Communicator(MPI_Comm*)`: `handle(mpiCommunicatorRhs)` — the proxy
handle constructor. -/
def Communicator.fromCommPtr (mpiCommunicator : Nat) : Communicator :=
  ⟨MPIcommunicatorHandle.fromCommPtr mpiCommunicator⟩

/-- `Communicator::get()`: `return handle.get();`. -/
def Communicator.get (c : Communicator) : Option Nat :=
  c.handle.get

/-- `Communicator::rank()`: `MPI_Comm_rank(handle.get(), &rank)`.  In the
model, a communicator's rank is that of its congruence class. -/
def Communicator.rank (s : MPIState) (c : Communicator) : Option Int :=
  c.handle.get.map fun comm => s.rankOf (s.groupOf comm)

/-- `Communicator::size()`: `MPI_Comm_size(handle.get(), &size)`. -/
def Communicator.size (s : MPIState) (c : Communicator) : Option Nat :=
  c.handle.get.map fun comm => s.sizeOf (s.groupOf comm)

/-- `Communicator::split(color, key)`:
`MPI_Comm_split(handle.get(), color, key, &splitted); return Communicator{&splitted};`
— the result wraps the native split output through the proxy constructor.
`none` models the null dereference when `handle.impl` is null. -/
def Communicator.split (s : MPIState) (c : Communicator) (color key : Int) :
    Option (MPIState × Communicator) :=
  c.handle.get.map fun comm =>
    let p := MPI_Comm_split s comm color key
    (p.1, Communicator.fromCommPtr p.2)

/-- Writing through a raw pointer into a `std::vector`'s buffer replaces the
written prefix but never changes the vector's length. -/
def listOverwrite (buf newContents : List α) : List α :=
  newContents.take buf.length ++ buf.drop newContents.length

/-- Native `MPI_Gather`: on the root process it writes every process's
contribution into the receive buffer through `result.data()`; on any other
process it leaves the receive buffer untouched. -/
def MPI_Gather (isRoot : Bool) (contributions recvBuf : List α) : List α :=
  if isRoot then listOverwrite recvBuf contributions else recvBuf

/-- `Communicator::gather(source, data)` for POD `Type`:
`std::vector<Type> result; if(rank() == source) result.resize(size());
MPI_Gather(...); return result;`.  `data` is this process's contribution;
`contributions` abstracts the payload the native collective assembles from
all processes.  `none` models a null handle dereference. -/
def Communicator.gather [Inhabited α] (s : MPIState) (c : Communicator)
    (source : Int) (data : α) (contributions : List α) : Option (List α) :=
  (Communicator.rank s c).bind fun r =>
    (Communicator.size s c).map fun n =>
      let _ := data
      let result : List α := []
      let result := if r = source then List.replicate n default else result
      MPI_Gather (r = source) contributions result

/-! ## Send/receive requests (NiceMPI/NiceMPI.h) -/

/-- A native `MPI_Request`: whether the in-flight operation has completed. -/
structure MPI_Request where
  completed : Bool
deriving DecidableEq, Repr

/-- Native `MPI_Test`: reports the status code `err` the native library
produced, and a flag that is nonzero exactly when the operation has
completed (meaningful when `err = MPI_SUCCESS`). -/
def MPI_Test (r : MPI_Request) (err : Int) : Int × Int :=
  (err, if r.completed then 1 else 0)

/-- Native `MPI_Wait`: blocks until the operation completes; when it returns
with `MPI_SUCCESS` the request's operation is completed. -/
def MPI_Wait (r : MPI_Request) (err : Int) : Int × MPI_Request :=
  (err, if err = MPI_SUCCESS then { r with completed := true } else r)

/-- `SendRequest` stores `MPI_Request value`. -/
structure SendRequest where
  value : MPI_Request
deriving DecidableEq, Repr

/-- `SendRequest::isCompleted()`:
`int flag = 0; handleError(MPI_Test(&value, &flag, MPI_STATUS_IGNORE)); return flag != 0;`. -/
def SendRequest.isCompleted (r : SendRequest) (err : Int) : Except NiceMPIexception Bool :=
  let p := MPI_Test r.value err
  match handleError p.1 with
  | .error ex => .error ex
  | .ok _ => .ok (p.2 != 0)

/-- `SendRequest::wait()`: `handleError(MPI_Wait(&value, MPI_STATUS_IGNORE));`.
Returns the request as the native wait leaves it. -/
def SendRequest.wait (r : SendRequest) (err : Int) : Except NiceMPIexception SendRequest :=
  let p := MPI_Wait r.value err
  match handleError p.1 with
  | .error ex => .error ex
  | .ok _ => .ok ⟨p.2⟩

/-- `ReceiveRequest<Type>` stores `MPI_Request value` and the received data
(`std::unique_ptr<Type> dataPtr`). -/
structure ReceiveRequest (α : Type) where
  value : MPI_Request
  dataPtr : Option α
deriving DecidableEq, Repr

/-- `ReceiveRequest::isCompleted()`: same body as `SendRequest::isCompleted`. -/
def ReceiveRequest.isCompleted (r : ReceiveRequest α) (err : Int) :
    Except NiceMPIexception Bool :=
  let p := MPI_Test r.value err
  match handleError p.1 with
  | .error ex => .error ex
  | .ok _ => .ok (p.2 != 0)

/-- `ReceiveRequest::wait()`: same body as `SendRequest::wait`. -/
def ReceiveRequest.wait (r : ReceiveRequest α) (err : Int) :
    Except NiceMPIexception (ReceiveRequest α) :=
  let p := MPI_Wait r.value err
  match handleError p.1 with
  | .error ex => .error ex
  | .ok _ => .ok { r with value := p.2 }

/-! ## Initialization guards (MPI_RAII.h, NiceMPI/Initializer.h) -/

/-- Global state of the native library's lifetime. -/
structure MPIEnv where
  initialized : Bool
  finalized : Bool
deriving DecidableEq, Repr

/-- Native `MPI_Init`: reports the status code `err` the native library
produced; on success the library is initialized. -/
def MPI_Init (env : MPIEnv) (err : Int) : Int × MPIEnv :=
  (err, if err = MPI_SUCCESS then { env with initialized := true } else env)

/-- Native `MPI_Finalize`: the library stops being initialized. -/
def MPI_Finalize (env : MPIEnv) : MPIEnv :=
  { env with initialized := false, finalized := true }

/-- `MPI_RAII::MPI_RAII(argc, argv)`: `handleError(MPI_Init(&argc, &argv));`
(the `Initializer` constructor in `NiceMPI/Initializer.h` has the same
body).  On success the guard is constructed in the new environment; on
failure the exception propagates. -/
def MPI_RAII.construct (env : MPIEnv) (err : Int) : Except NiceMPIexception MPIEnv :=
  let p := MPI_Init env err
  match handleError p.1 with
  | .error ex => .error ex
  | .ok _ => .ok p.2

/-- `MPI_RAII::~MPI_RAII()` calls `MPI_Finalize()` (as does
`Initializer::~Initializer()`). -/
def MPI_RAII.destruct (env : MPIEnv) : MPIEnv :=
  MPI_Finalize env

/-! ## Theorems settling the specification claims -/

/-- (C1) `handleError(e)` throws a `NiceMPIexception` if and only if
`e ≠ MPI_SUCCESS`; the thrown exception carries `error = e` and the message
`"Error code " + e + " in MPI."`; on `MPI_SUCCESS` it returns normally
(the pure `Except.ok ()` has no effect). -/
theorem handleError_throws_iff_not_success (e : Int) :
    ((∃ ex, handleError e = Except.error ex) ↔ e ≠ MPI_SUCCESS) ∧
    (e ≠ MPI_SUCCESS →
      handleError e =
        Except.error { error := e, message := "Error code " ++ toString e ++ " in MPI." }) ∧
    (e = MPI_SUCCESS → handleError e = Except.ok ()) := by
  refine ⟨⟨?_, ?_⟩, ?_, ?_⟩
  · rintro ⟨ex, hex⟩ he
    simp [handleError, he] at hex
  · intro he
    exact ⟨mkNiceMPIexception e, by simp [handleError, he]⟩
  · intro he
    simp [handleError, he, mkNiceMPIexception]
  · intro he
    simp [handleError, he]

/-- Witness for C1: at the concrete codes `1` and `0 = MPI_SUCCESS`. -/
theorem handleError_throws_iff_not_success_witness :
    (1 : Int) ≠ MPI_SUCCESS ∧
    handleError 1 = Except.error { error := 1, message := "Error code 1 in MPI." } ∧
    handleError 0 = Except.ok () :=
  ⟨by decide,
   (handleError_throws_iff_not_success 1).2.1 (by decide),
   (handleError_throws_iff_not_success 0).2.2 (by decide)⟩

/-- Concrete native-layer state used by the witnesses: three allocated
communicators `0, 1, 2` in the same congruence class, rank `0`, size `4`. -/
def testState : MPIState :=
  { nextId := 3, alive := [0, 1, 2], groupOf := fun _ => Group.base 0,
    rankOf := fun _ => 0, sizeOf := fun _ => 4 }

/-- `deepCopy` of either implementation duplicates: the result is an
`OwnedCommunicator` of the fresh communicator `s.nextId`, whose class is
that of the source communicator; existing communicators keep their class. -/
theorem deepCopy_spec (s : MPIState) (i : MPIcommunicatorHandleImpl) :
    (i.deepCopy s).2 = .ownedCommunicator s.nextId ∧
    (i.deepCopy s).1.groupOf s.nextId = s.groupOf i.get ∧
    (∀ d, d ≠ s.nextId → (i.deepCopy s).1.groupOf d = s.groupOf d) ∧
    (i.deepCopy s).1.nextId = s.nextId + 1 ∧
    (i.deepCopy s).1.alive = s.nextId :: s.alive := by
  cases i with
  | ownedCommunicator c =>
      refine ⟨rfl, by simp [MPIcommunicatorHandleImpl.deepCopy, MPI_Comm_dup,
        MPIcommunicatorHandleImpl.get], ?_, rfl, rfl⟩
      intro d hd
      simp [MPIcommunicatorHandleImpl.deepCopy, MPI_Comm_dup, hd]
  | proxyCommunicator c =>
      refine ⟨rfl, by simp [MPIcommunicatorHandleImpl.deepCopy, MPI_Comm_dup,
        MPIcommunicatorHandleImpl.get], ?_, rfl, rfl⟩
      intro d hd
      simp [MPIcommunicatorHandleImpl.deepCopy, MPI_Comm_dup, hd]

/-- `destructImplPtr` only touches the `alive` list: it never allocates and
never changes any communicator's congruence class. -/
theorem destructImplPtr_frame (s : MPIState) (o : Option MPIcommunicatorHandleImpl) :
    (destructImplPtr s o).nextId = s.nextId ∧
    (destructImplPtr s o).groupOf = s.groupOf ∧
    (∀ d, d ∈ (destructImplPtr s o).alive → d ∈ s.alive) := by
  cases o with
  | none => exact ⟨rfl, rfl, fun d hd => hd⟩
  | some i =>
      cases i with
      | ownedCommunicator c =>
          exact ⟨rfl, rfl, fun d hd =>
            List.mem_of_mem_erase (by simpa [MPIcommunicatorHandleImpl.destruct,
              MPI_Comm_free] using hd)⟩
      | proxyCommunicator c => exact ⟨rfl, rfl, fun d hd => hd⟩

/-- (C2) Copy-constructing from a handle `rhs` holding implementation `i`,
or copy-assigning `rhs` into another handle, yields a handle that owns
(`OwnedCommunicator`) a duplicate of `rhs`'s native communicator: the
copy's communicator is congruent but not identical to `i.get`, and `rhs`'s
own communicator is unchanged — its congruence class is preserved and, for
the copy constructor, so is its allocation status. -/
theorem copy_duplicates (s : MPIState) (this rhs : MPIcommunicatorHandle)
    (i : MPIcommunicatorHandleImpl) (hi : rhs.impl = some i) (hwf : i.get < s.nextId) :
    (∃ s' copy d, MPIcommunicatorHandle.copyConstruct s rhs = some (s', copy) ∧
      copy.impl = some (.ownedCommunicator d) ∧
      congruentComm s' d i.get ∧ ¬ identicalComm d i.get ∧
      s'.groupOf i.get = s.groupOf i.get ∧
      (i.get ∈ s'.alive ↔ i.get ∈ s.alive)) ∧
    (∃ s' assigned d, MPIcommunicatorHandle.copyAssign s this rhs = some (s', assigned) ∧
      assigned.impl = some (.ownedCommunicator d) ∧
      congruentComm s' d i.get ∧ ¬ identicalComm d i.get ∧
      s'.groupOf i.get = s.groupOf i.get) := by
  obtain ⟨h2, hfresh, hold, hnext, halive⟩ := deepCopy_spec s i
  have hne : i.get ≠ s.nextId := Nat.ne_of_lt hwf
  constructor
  · refine ⟨(i.deepCopy s).1, ⟨some (i.deepCopy s).2⟩, s.nextId, ?_, ?_, ?_, ?_, ?_, ?_⟩
    · simp [MPIcommunicatorHandle.copyConstruct, hi]
    · simp [h2]
    · exact ⟨fun h => hne h.symm, by rw [hfresh, hold i.get hne]⟩
    · exact fun h => hne h.symm
    · exact hold i.get hne
    · rw [halive]
      simp [List.mem_cons, hne]
  · obtain ⟨dnext, dgroup, dalive⟩ :=
      destructImplPtr_frame (i.deepCopy s).1 this.impl
    refine ⟨destructImplPtr (i.deepCopy s).1 this.impl, ⟨some (i.deepCopy s).2⟩,
      s.nextId, ?_, ?_, ?_, ?_, ?_⟩
    · simp [MPIcommunicatorHandle.copyAssign, hi]
    · simp [h2]
    · exact ⟨fun h => hne h.symm, by rw [dgroup, hfresh, hold i.get hne]⟩
    · exact fun h => hne h.symm
    · rw [dgroup, hold i.get hne]

/-- Witness for C2: copying a handle owning communicator `1` in `testState`. -/
theorem copy_duplicates_witness :
    (MPIcommunicatorHandle.mk (some (.ownedCommunicator 1))).impl
      = some (MPIcommunicatorHandleImpl.ownedCommunicator 1) ∧
    (MPIcommunicatorHandleImpl.ownedCommunicator 1).get < testState.nextId ∧
    ((∃ s' copy d,
        MPIcommunicatorHandle.copyConstruct testState ⟨some (.ownedCommunicator 1)⟩
          = some (s', copy) ∧
        copy.impl = some (.ownedCommunicator d) ∧
        congruentComm s' d (MPIcommunicatorHandleImpl.ownedCommunicator 1).get ∧
        ¬ identicalComm d (MPIcommunicatorHandleImpl.ownedCommunicator 1).get ∧
        s'.groupOf (MPIcommunicatorHandleImpl.ownedCommunicator 1).get
          = testState.groupOf (MPIcommunicatorHandleImpl.ownedCommunicator 1).get ∧
        ((MPIcommunicatorHandleImpl.ownedCommunicator 1).get ∈ s'.alive ↔
          (MPIcommunicatorHandleImpl.ownedCommunicator 1).get ∈ testState.alive)) ∧
      (∃ s' assigned d,
        MPIcommunicatorHandle.copyAssign testState ⟨some (.ownedCommunicator 2)⟩
            ⟨some (.ownedCommunicator 1)⟩
          = some (s', assigned) ∧
        assigned.impl = some (.ownedCommunicator d) ∧
        congruentComm s' d (MPIcommunicatorHandleImpl.ownedCommunicator 1).get ∧
        ¬ identicalComm d (MPIcommunicatorHandleImpl.ownedCommunicator 1).get ∧
        s'.groupOf (MPIcommunicatorHandleImpl.ownedCommunicator 1).get
          = testState.groupOf (MPIcommunicatorHandleImpl.ownedCommunicator 1).get)) :=
  ⟨rfl, by decide,
    copy_duplicates testState ⟨some (.ownedCommunicator 2)⟩ ⟨some (.ownedCommunicator 1)⟩
      (.ownedCommunicator 1) rfl (by decide)⟩

/-- (C3) Move construction and move assignment transfer ownership: the
destination's `get()` afterwards returns exactly the communicator `rhs`
held before the move, and no duplication of the native resource occurs —
no fresh communicator is allocated (`nextId` unchanged, `alive` gains
nothing) and no congruence class changes. -/
theorem move_transfers_ownership (s : MPIState) (this rhs : MPIcommunicatorHandle) :
    ((MPIcommunicatorHandle.moveConstruct s rhs).2.1.get = rhs.get) ∧
    ((MPIcommunicatorHandle.moveConstruct s rhs).1 = s) ∧
    ((MPIcommunicatorHandle.moveAssign s this rhs).2.1.get = rhs.get) ∧
    ((MPIcommunicatorHandle.moveAssign s this rhs).1.nextId = s.nextId) ∧
    ((MPIcommunicatorHandle.moveAssign s this rhs).1.groupOf = s.groupOf) ∧
    (∀ d, d ∈ (MPIcommunicatorHandle.moveAssign s this rhs).1.alive → d ∈ s.alive) := by
  obtain ⟨dnext, dgroup, dalive⟩ := destructImplPtr_frame s this.impl
  exact ⟨rfl, rfl, rfl, dnext, dgroup, dalive⟩

/-- Witness for C3: moving a handle owning communicator `1` in `testState`
into a handle owning communicator `2`. -/
theorem move_transfers_ownership_witness :
    ((MPIcommunicatorHandle.moveConstruct testState ⟨some (.ownedCommunicator 1)⟩).2.1.get
      = (MPIcommunicatorHandle.mk (some (.ownedCommunicator 1))).get) ∧
    ((MPIcommunicatorHandle.moveConstruct testState ⟨some (.ownedCommunicator 1)⟩).1
      = testState) ∧
    ((MPIcommunicatorHandle.moveAssign testState ⟨some (.ownedCommunicator 2)⟩
        ⟨some (.ownedCommunicator 1)⟩).2.1.get
      = (MPIcommunicatorHandle.mk (some (.ownedCommunicator 1))).get) ∧
    ((MPIcommunicatorHandle.moveAssign testState ⟨some (.ownedCommunicator 2)⟩
        ⟨some (.ownedCommunicator 1)⟩).1.nextId = testState.nextId) ∧
    ((MPIcommunicatorHandle.moveAssign testState ⟨some (.ownedCommunicator 2)⟩
        ⟨some (.ownedCommunicator 1)⟩).1.groupOf = testState.groupOf) ∧
    (∀ d, d ∈ (MPIcommunicatorHandle.moveAssign testState ⟨some (.ownedCommunicator 2)⟩
        ⟨some (.ownedCommunicator 1)⟩).1.alive → d ∈ testState.alive) :=
  move_transfers_ownership testState ⟨some (.ownedCommunicator 2)⟩
    ⟨some (.ownedCommunicator 1)⟩

/-- (C4) Destroying an owning handle frees exactly the communicator it
owns: after destruction the owned communicator is no longer allocated
while every other communicator's allocation status is untouched, and
neither `nextId` nor any congruence class changes.  Destroying a proxy
handle leaves the native state exactly as it was. -/
theorem destruct_releases_only_owned (s : MPIState) (c : Nat) (hnd : s.alive.Nodup) :
    (c ∉ (MPIcommunicatorHandle.destruct s ⟨some (.ownedCommunicator c)⟩).alive) ∧
    (∀ d, d ≠ c →
      (d ∈ (MPIcommunicatorHandle.destruct s ⟨some (.ownedCommunicator c)⟩).alive ↔
        d ∈ s.alive)) ∧
    ((MPIcommunicatorHandle.destruct s ⟨some (.ownedCommunicator c)⟩).nextId = s.nextId) ∧
    ((MPIcommunicatorHandle.destruct s ⟨some (.ownedCommunicator c)⟩).groupOf = s.groupOf) ∧
    (MPIcommunicatorHandle.destruct s ⟨some (.proxyCommunicator c)⟩ = s) := by
  refine ⟨?_, ?_, rfl, rfl, rfl⟩
  · intro hmem
    have : c ≠ c ∧ c ∈ s.alive := by
      have := (List.Nodup.mem_erase_iff hnd).mp
        (by simpa [MPIcommunicatorHandle.destruct, destructImplPtr,
          MPIcommunicatorHandleImpl.destruct, MPI_Comm_free] using hmem)
      exact this
    exact this.1 rfl
  · intro d hd
    simp [MPIcommunicatorHandle.destruct, destructImplPtr,
      MPIcommunicatorHandleImpl.destruct, MPI_Comm_free, List.mem_erase_of_ne hd]

/-- Witness for C4: destroying handles over communicator `1` in `testState`. -/
theorem destruct_releases_only_owned_witness :
    testState.alive.Nodup ∧
    ((1 ∉ (MPIcommunicatorHandle.destruct testState ⟨some (.ownedCommunicator 1)⟩).alive) ∧
     (∀ d, d ≠ 1 →
       (d ∈ (MPIcommunicatorHandle.destruct testState ⟨some (.ownedCommunicator 1)⟩).alive ↔
         d ∈ testState.alive)) ∧
     ((MPIcommunicatorHandle.destruct testState ⟨some (.ownedCommunicator 1)⟩).nextId
        = testState.nextId) ∧
     ((MPIcommunicatorHandle.destruct testState ⟨some (.ownedCommunicator 1)⟩).groupOf
        = testState.groupOf) ∧
     (MPIcommunicatorHandle.destruct testState ⟨some (.proxyCommunicator 1)⟩ = testState)) :=
  ⟨by decide, destruct_releases_only_owned testState 1 (by decide)⟩

/-- (C5) `c.split(color, key)` returns a new `Communicator` wrapping exactly
(identically) the native communicator produced by `MPI_Comm_split` on `c`'s
underlying communicator with that color and key, and `c`'s own underlying
communicator is unchanged: its congruence class and allocation status are
preserved.  The new communicator's congruence class is
`Group.splitOf (class of parent) color`, so callers splitting congruent
communicators with the same color land in the same class whatever their
key — the key only orders ranks. -/
theorem split_wraps_native_split (s : MPIState) (c : Communicator) (comm : Nat)
    (color key : Int) (hc : c.handle.get = some comm) (hwf : comm < s.nextId) :
    ∃ s' r, Communicator.split s c color key = some (s', r) ∧
      s' = (MPI_Comm_split s comm color key).1 ∧
      r.get = some (MPI_Comm_split s comm color key).2 ∧
      r.handle.impl
        = some (.proxyCommunicator (MPI_Comm_split s comm color key).2) ∧
      s'.groupOf comm = s.groupOf comm ∧
      (comm ∈ s'.alive ↔ comm ∈ s.alive) ∧
      s'.groupOf (MPI_Comm_split s comm color key).2
        = Group.splitOf (s.groupOf comm) color := by
  have hne : comm ≠ s.nextId := Nat.ne_of_lt hwf
  refine ⟨(MPI_Comm_split s comm color key).1,
    Communicator.fromCommPtr (MPI_Comm_split s comm color key).2, ?_, rfl, rfl, rfl,
    ?_, ?_, ?_⟩
  · simp [Communicator.split, hc]
  · simp [MPI_Comm_split, hne]
  · simp [MPI_Comm_split, List.mem_cons, hne]
  · simp [MPI_Comm_split]

/-- Witness for C5: splitting a proxy communicator over communicator `1`
in `testState` with color `7` and key `-2`. -/
theorem split_wraps_native_split_witness :
    (Communicator.fromCommPtr 1).handle.get = some 1 ∧
    1 < testState.nextId ∧
    (∃ s' r, Communicator.split testState (Communicator.fromCommPtr 1) 7 (-2)
        = some (s', r) ∧
      s' = (MPI_Comm_split testState 1 7 (-2)).1 ∧
      r.get = some (MPI_Comm_split testState 1 7 (-2)).2 ∧
      r.handle.impl = some (.proxyCommunicator (MPI_Comm_split testState 1 7 (-2)).2) ∧
      s'.groupOf 1 = testState.groupOf 1 ∧
      (1 ∈ s'.alive ↔ 1 ∈ testState.alive) ∧
      s'.groupOf (MPI_Comm_split testState 1 7 (-2)).2
        = Group.splitOf (testState.groupOf 1) 7) :=
  ⟨rfl, by decide,
    split_wraps_native_split testState (Communicator.fromCommPtr 1) 1 7 (-2)
      rfl (by decide)⟩

/-- Writing through the buffer pointer never changes the buffer's length. -/
theorem listOverwrite_length (buf xs : List α) :
    (listOverwrite buf xs).length = buf.length := by
  simp [listOverwrite]
  omega

/-- (C6) On the process whose rank in `c` equals `source`, the vector
returned by `c.gather(source, data)` has length `c.size()`; on every other
process the returned vector is empty. -/
theorem gather_length [Inhabited α] (s : MPIState) (c : Communicator) (comm : Nat)
    (source : Int) (data : α) (contributions : List α)
    (hc : c.handle.get = some comm) :
    ∃ res n r, Communicator.size s c = some n ∧ Communicator.rank s c = some r ∧
      Communicator.gather s c source data contributions = some res ∧
      (r = source → res.length = n) ∧
      (r ≠ source → res = []) := by
  refine ⟨Communicator.gather s c source data contributions |>.getD [],
    s.sizeOf (s.groupOf comm), s.rankOf (s.groupOf comm), ?_, ?_, ?_, ?_, ?_⟩
  · simp [Communicator.size, hc]
  · simp [Communicator.rank, hc]
  · simp [Communicator.gather, Communicator.rank, Communicator.size, hc]
  · intro hr
    simp [Communicator.gather, Communicator.rank, Communicator.size, hc, hr,
      MPI_Gather, listOverwrite_length]
  · intro hr
    simp [Communicator.gather, Communicator.rank, Communicator.size, hc, hr,
      MPI_Gather]

/-- Witness for C6: gathering the integer `42` at source `0` on a proxy
communicator over communicator `1` in `testState` (rank `0`, size `4`). -/
theorem gather_length_witness :
    (Communicator.fromCommPtr 1).handle.get = some 1 ∧
    (∃ res n r,
      Communicator.size testState (Communicator.fromCommPtr 1) = some n ∧
      Communicator.rank testState (Communicator.fromCommPtr 1) = some r ∧
      Communicator.gather testState (Communicator.fromCommPtr 1) 0 (42 : Int)
          [10, 20, 30, 40] = some res ∧
      (r = 0 → res.length = n) ∧
      (r ≠ 0 → res = [])) :=
  ⟨rfl, gather_length testState (Communicator.fromCommPtr 1) 1 0 (42 : Int)
    [10, 20, 30, 40] rfl⟩

/-- (C7) For send and receive requests alike, `isCompleted()` returns true
exactly when the native completion test reports a nonzero flag (which the
native model sets exactly when the operation has completed); `wait()`
returns only once the native wait has completed the operation (on success
the returned request's operation is completed); and both translate a
native failure status `err ≠ MPI_SUCCESS` into a thrown `NiceMPIexception`
carrying that status. -/
theorem request_isCompleted_wait_spec (α : Type) (sr : SendRequest)
    (rr : ReceiveRequest α) (err : Int) :
    (err = MPI_SUCCESS →
      sr.isCompleted err = Except.ok ((MPI_Test sr.value err).2 != 0) ∧
      rr.isCompleted err = Except.ok ((MPI_Test rr.value err).2 != 0) ∧
      (sr.isCompleted err = Except.ok true ↔ sr.value.completed = true) ∧
      (rr.isCompleted err = Except.ok true ↔ rr.value.completed = true) ∧
      (∃ sr2, sr.wait err = Except.ok sr2 ∧ sr2.value.completed = true) ∧
      (∃ rr2, rr.wait err = Except.ok rr2 ∧ rr2.value.completed = true)) ∧
    (err ≠ MPI_SUCCESS →
      sr.isCompleted err = Except.error (mkNiceMPIexception err) ∧
      rr.isCompleted err = Except.error (mkNiceMPIexception err) ∧
      (mkNiceMPIexception err).error = err ∧
      sr.wait err = Except.error (mkNiceMPIexception err) ∧
      rr.wait err = Except.error (mkNiceMPIexception err)) := by
  constructor
  · intro h
    refine ⟨?_, ?_, ?_, ?_, ?_, ?_⟩
    · simp [SendRequest.isCompleted, handleError, MPI_Test, h]
    · simp [ReceiveRequest.isCompleted, handleError, MPI_Test, h]
    · cases hcp : sr.value.completed <;>
        simp [SendRequest.isCompleted, handleError, MPI_Test, h, hcp]
    · cases hcp : rr.value.completed <;>
        simp [ReceiveRequest.isCompleted, handleError, MPI_Test, h, hcp]
    · exact ⟨⟨{ sr.value with completed := true }⟩,
        by simp [SendRequest.wait, handleError, MPI_Wait, h], rfl⟩
    · exact ⟨{ rr with value := { rr.value with completed := true } },
        by simp [ReceiveRequest.wait, handleError, MPI_Wait, h], rfl⟩
  · intro h
    refine ⟨?_, ?_, rfl, ?_, ?_⟩
    · simp [SendRequest.isCompleted, handleError, MPI_Test, h]
    · simp [ReceiveRequest.isCompleted, handleError, MPI_Test, h]
    · simp [SendRequest.wait, handleError, MPI_Wait, h]
    · simp [ReceiveRequest.wait, handleError, MPI_Wait, h]

/-- Witness for C7: a completed send request and a pending receive request
of `Int`, under the successful status `0` and the failing status `5`. -/
theorem request_isCompleted_wait_spec_witness :
    (0 : Int) = MPI_SUCCESS ∧ (5 : Int) ≠ MPI_SUCCESS ∧
    ((SendRequest.mk ⟨true⟩).isCompleted 0
        = Except.ok ((MPI_Test (⟨true⟩ : MPI_Request) 0).2 != 0) ∧
      (ReceiveRequest.mk (α := Int) ⟨false⟩ (some 0)).isCompleted 0
        = Except.ok ((MPI_Test (⟨false⟩ : MPI_Request) 0).2 != 0) ∧
      ((SendRequest.mk ⟨true⟩).isCompleted 0 = Except.ok true ↔
        (⟨true⟩ : MPI_Request).completed = true) ∧
      ((ReceiveRequest.mk (α := Int) ⟨false⟩ (some 0)).isCompleted 0 = Except.ok true ↔
        (⟨false⟩ : MPI_Request).completed = true) ∧
      (∃ sr2, (SendRequest.mk ⟨true⟩).wait 0 = Except.ok sr2 ∧
        sr2.value.completed = true) ∧
      (∃ rr2, (ReceiveRequest.mk (α := Int) ⟨false⟩ (some 0)).wait 0 = Except.ok rr2 ∧
        rr2.value.completed = true)) ∧
    ((SendRequest.mk ⟨true⟩).isCompleted 5 = Except.error (mkNiceMPIexception 5) ∧
      (ReceiveRequest.mk (α := Int) ⟨false⟩ (some 0)).isCompleted 5
        = Except.error (mkNiceMPIexception 5) ∧
      (mkNiceMPIexception 5).error = 5 ∧
      (SendRequest.mk ⟨true⟩).wait 5 = Except.error (mkNiceMPIexception 5) ∧
      (ReceiveRequest.mk (α := Int) ⟨false⟩ (some 0)).wait 5
        = Except.error (mkNiceMPIexception 5)) :=
  ⟨by decide, by decide,
    (request_isCompleted_wait_spec Int ⟨⟨true⟩⟩ ⟨⟨false⟩, some 0⟩ 0).1 (by decide),
    (request_isCompleted_wait_spec Int ⟨⟨true⟩⟩ ⟨⟨false⟩, some 0⟩ 5).2 (by decide)⟩

/-- (C8) The guard's constructor runs the native initialization and throws
a `NiceMPIexception` carrying the native status whenever it does not
succeed; whenever construction succeeds the library is initialized; and
the destructor finalizes the library. -/
theorem guard_initializes_and_finalizes (env : MPIEnv) (err : Int) :
    (err = MPI_SUCCESS →
      ∃ env2, MPI_RAII.construct env err = Except.ok env2 ∧ env2.initialized = true) ∧
    (err ≠ MPI_SUCCESS →
      MPI_RAII.construct env err = Except.error (mkNiceMPIexception err) ∧
      (mkNiceMPIexception err).error = err) ∧
    (∀ env2, MPI_RAII.construct env err = Except.ok env2 → env2.initialized = true) ∧
    ((MPI_RAII.destruct env).initialized = false ∧
      (MPI_RAII.destruct env).finalized = true) := by
  refine ⟨?_, ?_, ?_, rfl, rfl⟩
  · intro h
    exact ⟨{ env with initialized := true },
      by simp [MPI_RAII.construct, MPI_Init, handleError, h], rfl⟩
  · intro h
    exact ⟨by simp [MPI_RAII.construct, MPI_Init, handleError, h], rfl⟩
  · intro env2 h2
    by_cases h : err = MPI_SUCCESS
    · simp [MPI_RAII.construct, MPI_Init, handleError, h] at h2
      rw [← h2]
    · simp [MPI_RAII.construct, MPI_Init, handleError, h] at h2

/-- Witness for C8: constructing the guard in a fresh environment under the
successful status `0` and the failing status `3`. -/
theorem guard_initializes_and_finalizes_witness :
    (0 : Int) = MPI_SUCCESS ∧ (3 : Int) ≠ MPI_SUCCESS ∧
    (∃ env2, MPI_RAII.construct ⟨false, false⟩ 0 = Except.ok env2 ∧
      env2.initialized = true) ∧
    (MPI_RAII.construct ⟨false, false⟩ 3 = Except.error (mkNiceMPIexception 3) ∧
      (mkNiceMPIexception 3).error = 3) ∧
    ((MPI_RAII.destruct ⟨true, false⟩).initialized = false ∧
      (MPI_RAII.destruct ⟨true, false⟩).finalized = true) :=
  ⟨by decide, by decide,
    (guard_initializes_and_finalizes ⟨false, false⟩ 0).1 (by decide),
    (guard_initializes_and_finalizes ⟨false, false⟩ 3).2.1 (by decide),
    (guard_initializes_and_finalizes ⟨true, false⟩ 0).2.2.2⟩

/-- (C9) Copying a proxy handle — by copy construction or copy assignment —
yields a handle whose implementation is an `OwnedCommunicator` (never
another `ProxyCommunicator`) owning a freshly duplicated communicator
congruent to the aliased one. -/
theorem copies_of_proxies_are_owned (s : MPIState) (this : MPIcommunicatorHandle)
    (c : Nat) (hwf : c < s.nextId) :
    (∃ s' copy d,
      MPIcommunicatorHandle.copyConstruct s ⟨some (.proxyCommunicator c)⟩
        = some (s', copy) ∧
      copy.impl = some (.ownedCommunicator d) ∧
      (∀ e, copy.impl ≠ some (.proxyCommunicator e)) ∧
      congruentComm s' d c) ∧
    (∃ s' assigned d,
      MPIcommunicatorHandle.copyAssign s this ⟨some (.proxyCommunicator c)⟩
        = some (s', assigned) ∧
      assigned.impl = some (.ownedCommunicator d) ∧
      (∀ e, assigned.impl ≠ some (.proxyCommunicator e)) ∧
      congruentComm s' d c) := by
  obtain ⟨h2, hfresh, hold, hnext, halive⟩ :=
    deepCopy_spec s (.proxyCommunicator c)
  obtain ⟨dnext, dgroup, dalive⟩ :=
    destructImplPtr_frame ((MPIcommunicatorHandleImpl.proxyCommunicator c).deepCopy s).1
      this.impl
  have hne : c ≠ s.nextId := Nat.ne_of_lt hwf
  have hget : (MPIcommunicatorHandleImpl.proxyCommunicator c).get = c := rfl
  constructor
  · refine ⟨((MPIcommunicatorHandleImpl.proxyCommunicator c).deepCopy s).1,
      ⟨some ((MPIcommunicatorHandleImpl.proxyCommunicator c).deepCopy s).2⟩,
      s.nextId, ?_, ?_, ?_, ?_⟩
    · simp [MPIcommunicatorHandle.copyConstruct]
    · simp [h2]
    · intro e
      simp [h2]
    · exact ⟨fun h => hne h.symm, by rw [hfresh, hget, hold c hne]⟩
  · refine ⟨destructImplPtr ((MPIcommunicatorHandleImpl.proxyCommunicator c).deepCopy s).1
        this.impl,
      ⟨some ((MPIcommunicatorHandleImpl.proxyCommunicator c).deepCopy s).2⟩,
      s.nextId, ?_, ?_, ?_, ?_⟩
    · simp [MPIcommunicatorHandle.copyAssign]
    · simp [h2]
    · intro e
      simp [h2]
    · exact ⟨fun h => hne h.symm, by rw [dgroup, hfresh, hget, hold c hne]⟩

/-- Witness for C9: copying a proxy of communicator `1` in `testState`,
with the assignment target owning communicator `2`. -/
theorem copies_of_proxies_are_owned_witness :
    1 < testState.nextId ∧
    ((∃ s' copy d,
        MPIcommunicatorHandle.copyConstruct testState ⟨some (.proxyCommunicator 1)⟩
          = some (s', copy) ∧
        copy.impl = some (.ownedCommunicator d) ∧
        (∀ e, copy.impl ≠ some (.proxyCommunicator e)) ∧
        congruentComm s' d 1) ∧
      (∃ s' assigned d,
        MPIcommunicatorHandle.copyAssign testState ⟨some (.ownedCommunicator 2)⟩
            ⟨some (.proxyCommunicator 1)⟩
          = some (s', assigned) ∧
        assigned.impl = some (.ownedCommunicator d) ∧
        (∀ e, assigned.impl ≠ some (.proxyCommunicator e)) ∧
        congruentComm s' d 1)) :=
  ⟨by decide,
    copies_of_proxies_are_owned testState ⟨some (.ownedCommunicator 2)⟩ 1 (by decide)⟩

/-- (C10) After a handle is moved from — by move construction or move
assignment — its implementation pointer is null (`impl = none`): it no
longer owns or references any native communicator, `get()` dereferences
the null pointer (modelled by `none`), and destroying the moved-from
handle is safe — it leaves the native state untouched. -/
theorem moved_from_handle_is_null (s : MPIState) (this rhs : MPIcommunicatorHandle) :
    ((MPIcommunicatorHandle.moveConstruct s rhs).2.2.impl = none) ∧
    ((MPIcommunicatorHandle.moveConstruct s rhs).2.2.get = none) ∧
    ((MPIcommunicatorHandle.moveAssign s this rhs).2.2.impl = none) ∧
    ((MPIcommunicatorHandle.moveAssign s this rhs).2.2.get = none) ∧
    (MPIcommunicatorHandle.destruct s ⟨none⟩ = s) :=
  ⟨rfl, rfl, rfl, rfl, rfl⟩

end NiceMPI
